import Mathlib

/-!
Verification of the vault-mcp adapter (src/index.ts): a shallow embedding of
its configuration validator, tool handlers, resource handlers and prompt
generator, with theorems about the documented behaviour.
-/

/-- A model of JSON values as produced and consumed by the adapter and the
backend client. -/
inductive Json where
  | null
  | bool (b : Bool)
  | num (n : Int)
  | str (s : String)
  | arr (elems : List Json)
  | obj (fields : List (String × Json))
deriving Repr

mutual

/-- Model of JSON.stringify as used by the handlers to serialize results into
the text of a response; indentation of the source call site is not modelled,
only the structure-preserving rendering. -/
def Json.stringify : Json → String
  | .null => "null"
  | .bool b => if b then "true" else "false"
  | .num n => toString n
  | .str s => "\"" ++ s ++ "\""
  | .arr xs => "[" ++ Json.stringifyList xs ++ "]"
  | .obj fs => "\x7b" ++ Json.stringifyFields fs ++ "\x7d"

def Json.stringifyList : List Json → String
  | [] => ""
  | [x] => Json.stringify x
  | x :: y :: xs => Json.stringify x ++ "," ++ Json.stringifyList (y :: xs)

def Json.stringifyFields : List (String × Json) → String
  | [] => ""
  | [(k, v)] => "\"" ++ k ++ "\":" ++ Json.stringify v
  | (k, v) :: f :: fs =>
      "\"" ++ k ++ "\":" ++ Json.stringify v ++ "," ++ Json.stringifyFields (f :: fs)

end

/-- JS property access on a value: a field of an object, `undefined` (none)
otherwise. -/
def Json.getField : Json → String → Option Json
  | .obj fs, k => fs.lookup k
  | _, _ => none

/-- JS falsiness of a value, as consulted by the `||` operator. -/
def Json.isFalsy : Json → Bool
  | .null => true
  | .bool b => !b
  | .num n => n == 0
  | .str s => s == ""
  | _ => false

/-- Errors raised by the backend client (node-vault): connectivity failures,
permission errors, and the backend convention of signaling a missing path as
an error. -/
inductive VErr where
  | notFound
  | permissionDenied (msg : String)
  | connectivity (msg : String)
deriving Repr, DecidableEq

/-- One call made to the backend client, recorded for the handler traces. -/
inductive VaultCall where
  | write (path : String) (body : Json)
  | read (path : String)
  | del (path : String)
  | list (path : String)
  | addPolicy (name policy : String)
  | listPolicies
deriving Repr

/-- The backend client handle: each operation either returns a backend JSON
result or raises a backend error. -/
structure VaultClient where
  write : String → Json → Except VErr Json
  read : String → Except VErr Json
  del : String → Except VErr Json
  list : String → Except VErr Json
  addPolicy : String → String → Except VErr Json
  listPolicies : Except VErr Json

/-- One content block of a tool response envelope. -/
structure ContentBlock where
  type : String
  text : String
deriving Repr, DecidableEq

/-- A tool response envelope: a list of content blocks. -/
structure ToolResponse where
  content : List ContentBlock
deriving Repr, DecidableEq

/-- One entry of a resource response: its uri and serialized text. -/
structure ResourceContents where
  uri : String
  text : String
deriving Repr, DecidableEq

/-- A resource response envelope. -/
structure ResourceResponse where
  contents : List ResourceContents
deriving Repr, DecidableEq

/-- Embedding of the secret/create tool handler: writes the backend at
secret/data/ followed by the given path, with body data wrapped in a data
field, then wraps path and serialized result into one text content block.
The second component records the backend calls the handler made. -/
def secretCreateHandler (vc : VaultClient) (path : String) (data : Json) :
    Except VErr ToolResponse × List VaultCall :=
  match vc.write ("secret/data/" ++ path) (Json.obj [("data", data)]) with
  | .ok result =>
      (.ok ⟨[⟨"text", "Secret written at: " ++ path ++ "\n" ++ result.stringify⟩]⟩,
       [.write ("secret/data/" ++ path) (Json.obj [("data", data)])])
  | .error e =>
      (.error e, [.write ("secret/data/" ++ path) (Json.obj [("data", data)])])

/-- Embedding of the secret/read tool handler: reads the backend at
secret/data/ followed by the given path and wraps path and serialized result
into one text content block; a backend error propagates out of the handler. -/
def secretReadHandler (vc : VaultClient) (path : String) :
    Except VErr ToolResponse × List VaultCall :=
  match vc.read ("secret/data/" ++ path) with
  | .ok result =>
      (.ok ⟨[⟨"text", "Secret read at: " ++ path ++ "\n" ++ result.stringify⟩]⟩,
       [.read ("secret/data/" ++ path)])
  | .error e => (.error e, [.read ("secret/data/" ++ path)])

/-- Embedding of the secret/delete tool handler. -/
def secretDeleteHandler (vc : VaultClient) (path : String) :
    Except VErr ToolResponse × List VaultCall :=
  match vc.del ("secret/data/" ++ path) with
  | .ok result =>
      (.ok ⟨[⟨"text", "Secret deleted at: " ++ path ++ "\n" ++ result.stringify⟩]⟩,
       [.del ("secret/data/" ++ path)])
  | .error e => (.error e, [.del ("secret/data/" ++ path)])

/-- Embedding of the policy/create tool handler. -/
def policyCreateHandler (vc : VaultClient) (name policy : String) :
    Except VErr ToolResponse × List VaultCall :=
  match vc.addPolicy name policy with
  | .ok result =>
      (.ok ⟨[⟨"text", "Policy " ++ name ++ " created.\n" ++ result.stringify⟩]⟩,
       [.addPolicy name policy])
  | .error e => (.error e, [.addPolicy name policy])

/-- The text the vault-secrets resource serializes on a successful backend
list: JSON.stringify of result.data.keys with an empty-array fallback. When
result.data is undefined the JS property access throws inside the try block
and the surrounding catch returns the literal text; that catch outcome is
folded into the first branch here. -/
def secretsText (result : Json) : String :=
  match result.getField "data" with
  | none => "[]"
  | some d =>
      match d.getField "keys" with
      | none => (Json.arr []).stringify
      | some k => if k.isFalsy then (Json.arr []).stringify else k.stringify

/-- Embedding of the vault-secrets resource handler: lists backend metadata at
the fixed root secret/metadata inside a try block; on any backend error the
catch returns a response whose text is the literal empty JSON array. The
handler is total: its type carries no error case. -/
def vaultSecretsHandler (vc : VaultClient) : ResourceResponse × List VaultCall :=
  match vc.list "secret/metadata" with
  | .ok result =>
      (⟨[⟨"vault://secrets", secretsText result⟩]⟩, [.list "secret/metadata"])
  | .error _ => (⟨[⟨"vault://secrets", "[]"⟩]⟩, [.list "secret/metadata"])

/-- Embedding of the vault-policies resource handler: queries the backend
policy listing with no try block, so a backend error propagates unchanged. -/
def vaultPoliciesHandler (vc : VaultClient) :
    Except VErr ResourceResponse × List VaultCall :=
  match vc.listPolicies with
  | .ok result =>
      (.ok ⟨[⟨"vault://policies", result.stringify⟩]⟩, [.listPolicies])
  | .error e => (.error e, [.listPolicies])

/-- The result of the JS Number coercion applied by the schema to the raw
MCP_PORT value: not-a-number, a signed infinity, or a finite value modelled
as a rational. -/
inductive JsNum where
  | nan
  | inf (neg : Bool)
  | num (q : ℚ)
deriving Repr, DecidableEq

/-- The configuration fields validated by the schema. -/
inductive ConfigField where
  | addr
  | token
  | port
deriving Repr, DecidableEq

/-- One validation issue: the field it concerns and its message. Messages are
paraphrased from the source without punctuation that the rendering does not
depend on. -/
structure Issue where
  field : ConfigField
  message : String
deriving Repr, DecidableEq

/-- Issues of the VAULT_ADDR field: the url check of the schema, with the
external URL well-formedness predicate passed in as u. -/
def addrIssues (u : String → Bool) (a : String) : List Issue :=
  if u a then []
  else [⟨.addr, "VAULT_ADDR must be a valid URL"⟩]

/-- JS String.prototype.startsWith, on the character lists of the strings. -/
def strStartsWith (s pre : String) : Bool :=
  pre.data.isPrefixOf s.data

/-- Issues of the VAULT_TOKEN field: the min-3 length check and the
startsWith check of the schema; both checks run and both report. -/
def tokenIssues (t : String) : List Issue :=
  (if 3 ≤ t.length then []
   else [⟨.token, "String must contain at least 3 characters"⟩]) ++
  (if strStartsWith t "hsv." then []
   else [⟨.token, "VAULT_TOKEN must start with the hsv. marker for HashiCorp Vault tokens"⟩])

/-- Issues of the MCP_PORT field after coercion: absent passes the optional
wrapper; a non-number fails the type check; a finite number runs the int, min
and max checks, each reporting independently. -/
def portIssues : Option JsNum → List Issue
  | none => []
  | some .nan => [⟨.port, "Expected number, received nan"⟩]
  | some (.inf neg) =>
      [⟨.port, "Expected integer, received float"⟩] ++
      (if neg then [⟨.port, "Number must be greater than or equal to 1"⟩]
       else [⟨.port, "Number must be less than or equal to 65535"⟩])
  | some (.num q) =>
      (if q.den = 1 then []
       else [⟨.port, "Expected integer, received float"⟩]) ++
      (if 1 ≤ q then []
       else [⟨.port, "Number must be greater than or equal to 1"⟩]) ++
      (if q ≤ 65535 then []
       else [⟨.port, "Number must be less than or equal to 65535"⟩])

/-- All issues of one parse of the schema, fields in declaration order. -/
def configIssues (u : String → Bool) (a t : String) (p : Option JsNum) :
    List Issue :=
  addrIssues u a ++ tokenIssues t ++ portIssues p

/-- The port carried by the parsed configuration: the default 3000 when the
raw value is absent, otherwise the coerced value. Only consulted when the
field has no issues, so the non-finite cases are arbitrary. -/
def coercePort : Option JsNum → ℚ
  | none => 3000
  | some .nan => 0
  | some (.inf _) => 0
  | some (.num q) => q

/-- The validated immutable configuration value. -/
structure VaultConfig where
  VAULT_ADDR : String
  VAULT_TOKEN : String
  MCP_PORT : ℚ
deriving Repr, DecidableEq

/-- Embedding of VaultConfigSchema.parse: succeeds exactly when no field has
an issue, and otherwise fails with the full issue list of the one parse. -/
def zodParse (u : String → Bool) (a t : String) (p : Option JsNum) :
    Except (List Issue) VaultConfig :=
  if configIssues u a t p = [] then .ok ⟨a, t, coercePort p⟩
  else .error (configIssues u a t p)

/-- The env-var key reported for a field in the constructor error message. -/
def fieldKey : ConfigField → String
  | .addr => "VAULT_ADDR"
  | .token => "VAULT_TOKEN"
  | .port => "MCP_PORT"

/-- Embedding of the VaultMcpServer constructor validation: on a ZodError it
throws one configuration error whose message joins one line per issue. -/
def buildServerConfig (u : String → Bool) (a t : String) (p : Option JsNum) :
    Except String VaultConfig :=
  match zodParse u a t p with
  | .ok c => .ok c
  | .error issues =>
      .error ("Invalid Vault configuration:\n" ++
        String.intercalate "\n"
          (issues.map fun i => "- " ++ fieldKey i.field ++ ": " ++ i.message))

/-- Spec-side validity of one field of the raw triple, stated independently
of the issue lists: the address passes the URL predicate, the token passes
length and marker checks, the port is absent or a finite integer in range. -/
def fieldOk (u : String → Bool) (a t : String) (p : Option JsNum) :
    ConfigField → Bool
  | .addr => u a
  | .token => decide (3 ≤ t.length) && strStartsWith t "hsv."
  | .port =>
      match p with
      | none => true
      | some .nan => false
      | some (.inf _) => false
      | some (.num q) => decide (q.den = 1) && decide (1 ≤ q) && decide (q ≤ 65535)

/-- JS String.prototype.split with a one-character separator, on character
lists: the number of fields is always one more than the number of
separators, and the empty input yields one empty field. -/
def splitAux (sep : Char) : List Char → List (List Char)
  | [] => [[]]
  | c :: cs =>
      if c = sep then [] :: splitAux sep cs
      else
        match splitAux sep cs with
        | [] => [[c]]
        | t :: ts => (c :: t) :: ts

/-- JS String.prototype.split with a one-character separator. -/
def jsSplit (sep : Char) (s : String) : List String :=
  (splitAux sep s.data).map (fun l => ⟨l⟩)

/-- Whitespace as stripped by JS String.prototype.trim; the rarer Unicode
space code points are not modelled. -/
def isJsSpace (c : Char) : Bool :=
  c = ' ' || c = '\t' || c = '\n' || c = '\r' || c = '\x0b' || c = '\x0c'

/-- JS String.prototype.trim: strips leading and trailing whitespace. -/
def jsTrim (s : String) : String :=
  ⟨((s.data.dropWhile isJsSpace).reverse.dropWhile isJsSpace).reverse⟩

/-- The capability array built by the generate-policy prompt handler:
capabilities.split on comma, then map trim. -/
def capArray (capabilities : String) : List String :=
  (jsSplit ',' capabilities).map jsTrim

/-- Embedding of the generate-policy prompt handler body: the policy
document it constructs, before serialization — path maps the given path to
its capability array. No backend client is in scope: the function is pure. -/
def generatePolicy (path capabilities : String) : Json :=
  Json.obj [("path", Json.obj
    [(path, Json.obj
      [("capabilities", Json.arr ((capArray capabilities).map Json.str))])])]

/-- One message of a prompt response: role and a text content block. -/
structure PromptMessage where
  role : String
  contentType : String
  text : String
deriving Repr, DecidableEq

/-- Embedding of the full generate-policy prompt handler: one user message
whose text serializes the constructed policy document. -/
def generatePolicyHandler (path capabilities : String) : List PromptMessage :=
  [⟨"user", "text", (generatePolicy path capabilities).stringify⟩]

/-- Joining a field list with commas: the spec-side inverse of the split. -/
def joinComma : List String → String
  | [] => ""
  | [x] => x
  | x :: y :: xs => x ++ "," ++ joinComma (y :: xs)

/-- List-level join with the separator interleaved. -/
def joinAux (sep : Char) : List (List Char) → List Char
  | [] => []
  | [x] => x
  | x :: y :: xs => x ++ sep :: joinAux sep (y :: xs)

theorem splitAux_ne_nil (sep : Char) (l : List Char) : splitAux sep l ≠ [] := by
  induction l with
  | nil => simp [splitAux]
  | cons c cs ih =>
    simp only [splitAux]
    split
    · simp
    · cases h : splitAux sep cs with
      | nil => simp
      | cons t ts => simp

theorem splitAux_length (sep : Char) (l : List Char) :
    (splitAux sep l).length = l.count sep + 1 := by
  induction l with
  | nil => simp [splitAux]
  | cons c cs ih =>
    simp only [splitAux]
    by_cases hc : c = sep
    · simp [hc, List.count_cons, ih]
    · cases h : splitAux sep cs with
      | nil => exact absurd h (splitAux_ne_nil sep cs)
      | cons t ts =>
        rw [h] at ih
        simp [hc, List.count_cons, Ne.symm hc, ← ih]

theorem joinAux_splitAux (sep : Char) (l : List Char) :
    joinAux sep (splitAux sep l) = l := by
  induction l with
  | nil => simp [splitAux, joinAux]
  | cons c cs ih =>
    simp only [splitAux]
    by_cases hc : c = sep
    · simp only [hc, if_pos rfl]
      cases h : splitAux sep cs with
      | nil => exact absurd h (splitAux_ne_nil sep cs)
      | cons t ts =>
        rw [h] at ih
        simp [joinAux, ih]
    · simp only [if_neg hc]
      cases h : splitAux sep cs with
      | nil => exact absurd h (splitAux_ne_nil sep cs)
      | cons t ts =>
        rw [h] at ih
        cases ts with
        | nil => simp [joinAux] at ih ⊢; simp [ih]
        | cons u us => simp [joinAux] at ih ⊢; simp [ih]

theorem joinComma_map_mk (ls : List (List Char)) :
    joinComma (ls.map (fun l => (⟨l⟩ : String))) = ⟨joinAux ',' ls⟩ := by
  induction ls with
  | nil => rfl
  | cons x xs ih =>
    cases xs with
    | nil => rfl
    | cons y ys =>
      simp only [List.map, joinComma, joinAux] at ih ⊢
      rw [ih]
      show String.mk ((x ++ [',']) ++ joinAux ',' (y :: ys)) = _
      rw [List.append_assoc]
      rfl

theorem joinComma_jsSplit (s : String) : joinComma (jsSplit ',' s) = s := by
  show joinComma ((splitAux ',' s.data).map (fun l => (⟨l⟩ : String))) = s
  rw [joinComma_map_mk, joinAux_splitAux]

theorem capArray_length (s : String) :
    (capArray s).length = s.data.count ',' + 1 := by
  simp [capArray, jsSplit, splitAux_length]

/-- A backend client whose every operation succeeds with a fixed result. -/
def okClient : VaultClient where
  write := fun _ _ => .ok (Json.num 7)
  read := fun _ => .ok (Json.num 7)
  del := fun _ => .ok (Json.num 7)
  list := fun _ => .ok (Json.num 7)
  addPolicy := fun _ _ => .ok (Json.num 7)
  listPolicies := .ok (Json.num 7)

/-- A backend client whose every operation fails with a connectivity error. -/
def failingClient : VaultClient where
  write := fun _ _ => .error (.connectivity "down")
  read := fun _ => .error (.connectivity "down")
  del := fun _ => .error (.connectivity "down")
  list := fun _ => .error (.connectivity "down")
  addPolicy := fun _ _ => .error (.connectivity "down")
  listPolicies := .error (.connectivity "down")

/-- A backend client whose every operation signals a missing path. -/
def notFoundClient : VaultClient where
  write := fun _ _ => .error .notFound
  read := fun _ => .error .notFound
  del := fun _ => .error .notFound
  list := fun _ => .error .notFound
  addPolicy := fun _ _ => .error .notFound
  listPolicies := .error .notFound

/-- C1: whenever the backend list call at secret/metadata fails with any
error, the vault-secrets resource read returns the empty list text instead of
propagating the error; the handler also performs exactly that one list call,
and its total return type carries no failure case. -/
theorem vault_secrets_error_degrades_to_empty (vc : VaultClient) (e : VErr)
    (h : vc.list "secret/metadata" = .error e) :
    vaultSecretsHandler vc =
      (⟨[⟨"vault://secrets", "[]"⟩]⟩, [.list "secret/metadata"]) := by
  simp [vaultSecretsHandler, h]

theorem vault_secrets_error_degrades_to_empty_witness :
    failingClient.list "secret/metadata" =
      Except.error (VErr.connectivity "down") ∧
    vaultSecretsHandler failingClient =
      (⟨[⟨"vault://secrets", "[]"⟩]⟩, [VaultCall.list "secret/metadata"]) :=
  ⟨rfl, vault_secrets_error_degrades_to_empty failingClient
    (VErr.connectivity "down") rfl⟩

/-- C2: whenever the backend policy listing fails with any error, the
vault-policies resource read propagates exactly that error, substituting no
default result. -/
theorem vault_policies_error_propagates (vc : VaultClient) (e : VErr)
    (h : vc.listPolicies = .error e) :
    vaultPoliciesHandler vc = (.error e, [.listPolicies]) := by
  simp [vaultPoliciesHandler, h]

theorem vault_policies_error_propagates_witness :
    failingClient.listPolicies = Except.error (VErr.connectivity "down") ∧
    vaultPoliciesHandler failingClient =
      (.error (.connectivity "down"), [VaultCall.listPolicies]) :=
  ⟨rfl, vault_policies_error_propagates failingClient
    (VErr.connectivity "down") rfl⟩

/-- C5: for every path, the secret/read handler performs exactly one backend
read, at exactly secret/data/ followed by the path; on a successful read it
yields the secret contents, and when the backend signals that no secret
exists there, the handler yields that not-found outcome. -/
theorem secret_read_exact_path_or_not_found (vc : VaultClient) (path : String) :
    (secretReadHandler vc path).2 = [.read ("secret/data/" ++ path)] ∧
    (∀ r, vc.read ("secret/data/" ++ path) = .ok r →
      (secretReadHandler vc path).1 =
        .ok ⟨[⟨"text", "Secret read at: " ++ path ++ "\n" ++ r.stringify⟩]⟩) ∧
    (vc.read ("secret/data/" ++ path) = .error .notFound →
      (secretReadHandler vc path).1 = .error .notFound) := by
  refine ⟨?_, ?_, ?_⟩
  · cases h : vc.read ("secret/data/" ++ path) <;> simp [secretReadHandler, h]
  · intro r h
    simp [secretReadHandler, h]
  · intro h
    simp [secretReadHandler, h]

theorem secret_read_exact_path_or_not_found_witness :
    (secretReadHandler okClient "apps/demo").1 =
      .ok ⟨[⟨"text", "Secret read at: " ++ "apps/demo" ++ "\n" ++
        (Json.num 7).stringify⟩]⟩ ∧
    (secretReadHandler notFoundClient "apps/demo").1 = .error .notFound :=
  ⟨(secret_read_exact_path_or_not_found okClient "apps/demo").2.1
      (Json.num 7) rfl,
   (secret_read_exact_path_or_not_found notFoundClient "apps/demo").2.2 rfl⟩

/-- C8: for every path and data, the secret/create handler performs exactly
one backend write, at exactly secret/data/ followed by the path, with the
data wrapped in a data field; on success it returns an envelope with a
single text content block holding the path and the serialized write result. -/
theorem secret_create_single_write (vc : VaultClient) (path : String)
    (data : Json) :
    (secretCreateHandler vc path data).2 =
      [.write ("secret/data/" ++ path) (Json.obj [("data", data)])] ∧
    (∀ r, vc.write ("secret/data/" ++ path) (Json.obj [("data", data)]) = .ok r →
      (secretCreateHandler vc path data).1 =
        .ok ⟨[⟨"text", "Secret written at: " ++ path ++ "\n" ++ r.stringify⟩]⟩) := by
  refine ⟨?_, ?_⟩
  · cases h : vc.write ("secret/data/" ++ path) (Json.obj [("data", data)]) <;>
      simp [secretCreateHandler, h]
  · intro r h
    simp [secretCreateHandler, h]

theorem secret_create_single_write_witness :
    (secretCreateHandler okClient "apps/demo" (Json.str "v")).2 =
      [.write ("secret/data/" ++ "apps/demo")
        (Json.obj [("data", Json.str "v")])] ∧
    (secretCreateHandler okClient "apps/demo" (Json.str "v")).1 =
      .ok ⟨[⟨"text", "Secret written at: " ++ "apps/demo" ++ "\n" ++
        (Json.num 7).stringify⟩]⟩ :=
  ⟨(secret_create_single_write okClient "apps/demo" (Json.str "v")).1,
   (secret_create_single_write okClient "apps/demo" (Json.str "v")).2
      (Json.num 7) rfl⟩

/-- C6: the generate-policy prompt is a pure function of path and
capabilities whose document maps path to the given path mapped to the
capability array obtained by splitting the capabilities string on commas and
trimming each token; joining the split fields back with commas restores the
input exactly, so token order is preserved, duplicates are retained, and no
token is dropped or validated away. -/
theorem generate_policy_split_trim (p s : String) :
    generatePolicy p s =
      Json.obj [("path", Json.obj
        [(p, Json.obj
          [("capabilities",
            Json.arr (((jsSplit ',' s).map jsTrim).map Json.str))])])] ∧
    joinComma (jsSplit ',' s) = s ∧
    (capArray s).length = (jsSplit ',' s).length :=
  ⟨rfl, joinComma_jsSplit s, by simp [capArray]⟩

/-- C7: for every path, generating with capabilities read-comma-space-list
and with read-comma-list yields identical documents, each with capability
array read then list in that order. -/
theorem generate_policy_whitespace_insensitive (p : String) :
    generatePolicy p "read, list" = generatePolicy p "read,list" ∧
    capArray "read, list" = ["read", "list"] ∧
    capArray "read,list" = ["read", "list"] := by
  have h : capArray "read, list" = capArray "read,list" := by decide
  exact ⟨by simp [generatePolicy, h], by decide, by decide⟩

/-- C10: with the empty capabilities string the generated document carries
the one-element capability array holding the empty token, never the empty
array; in general the capability array has exactly one more element than the
input has commas. -/
theorem generate_policy_empty_and_count (p s : String) :
    generatePolicy p "" =
      Json.obj [("path", Json.obj
        [(p, Json.obj [("capabilities", Json.arr [Json.str ""])])])] ∧
    (capArray s).length = s.data.count ',' + 1 := by
  have h : capArray "" = [""] := by decide
  exact ⟨by simp [generatePolicy, h], capArray_length s⟩

/-- C3: the schema as written rejects a token carrying the real HashiCorp
marker hvs. while accepting the transposed marker hsv., so the constructor
can never accept a configuration whose token follows the backend convention
documented in the repository README. -/
theorem token_check_rejects_backend_convention :
    tokenIssues "hvs.abcdef" =
      [⟨.token,
        "VAULT_TOKEN must start with the hsv. marker for HashiCorp Vault tokens"⟩] ∧
    tokenIssues "hsv.abcdef" = [] ∧
    (∀ u c, buildServerConfig u "http://vault.example.com:8200" "hvs.abcdef" none ≠
      .ok c) := by
  refine ⟨by decide, by decide, ?_⟩
  intro u c
  have ht : tokenIssues "hvs.abcdef" ≠ [] := by decide
  have hne : configIssues u "http://vault.example.com:8200" "hvs.abcdef" none ≠ [] := by
    simp only [configIssues, portIssues, List.append_nil, ne_eq,
      List.append_eq_nil]
    exact fun hh => ht hh.2
  simp [buildServerConfig, zodParse, hne]

/-- C4: for every triple and every field, the field appears in the single
issue report of one parse exactly when the field is violated, and the parse
fails exactly when some issue exists, so the configuration error enumerates
every violated field rather than only the first. -/
theorem config_error_enumerates_every_field (u : String → Bool) (a t : String)
    (p : Option JsNum) :
    (∀ f, f ∈ (configIssues u a t p).map Issue.field ↔
      fieldOk u a t p f = false) ∧
    (zodParse u a t p = .error (configIssues u a t p) ↔
      configIssues u a t p ≠ []) := by
  constructor
  · intro f
    rcases p with _ | jn
    · by_cases h1 : u a = true <;> by_cases h2 : 3 ≤ t.length <;>
        by_cases h3 : strStartsWith t "hsv." = true <;> cases f <;>
        simp [configIssues, addrIssues, tokenIssues, portIssues, fieldOk,
          h1, h2, h3]
    · rcases jn with _ | neg | q
      · by_cases h1 : u a = true <;> by_cases h2 : 3 ≤ t.length <;>
          by_cases h3 : strStartsWith t "hsv." = true <;> cases f <;>
          simp [configIssues, addrIssues, tokenIssues, portIssues, fieldOk,
            h1, h2, h3]
      · cases neg <;> by_cases h1 : u a = true <;> by_cases h2 : 3 ≤ t.length <;>
          by_cases h3 : strStartsWith t "hsv." = true <;> cases f <;>
          simp [configIssues, addrIssues, tokenIssues, portIssues, fieldOk,
            h1, h2, h3]
      · by_cases h1 : u a = true <;> by_cases h2 : 3 ≤ t.length <;>
          by_cases h3 : strStartsWith t "hsv." = true <;>
          by_cases hq1 : q.den = 1 <;> by_cases hq2 : 1 ≤ q <;>
          by_cases hq3 : q ≤ 65535 <;> cases f <;>
          simp [configIssues, addrIssues, tokenIssues, portIssues, fieldOk,
            h1, h2, h3, hq1, hq2, hq3]
  · by_cases h : configIssues u a t p = [] <;> simp [zodParse, h]

/-- C9: a supplied finite port passes the schema exactly when it is an
integer between 1 and 65535; a non-numeric or infinite port is rejected; and
an absent port yields the parsed configuration with the default 3000. -/
theorem port_range_and_default (q : ℚ) :
    (portIssues (some (JsNum.num q)) = [] ↔
      q.den = 1 ∧ 1 ≤ q ∧ q ≤ 65535) ∧
    portIssues (some JsNum.nan) ≠ [] ∧
    portIssues (some (JsNum.inf true)) ≠ [] ∧
    portIssues (some (JsNum.inf false)) ≠ [] ∧
    portIssues none = [] ∧
    (∀ u a t, configIssues u a t none = [] →
      zodParse u a t none = .ok ⟨a, t, 3000⟩) := by
  refine ⟨?_, by decide, by decide, by decide, rfl, ?_⟩
  · by_cases hq1 : q.den = 1 <;> by_cases hq2 : 1 ≤ q <;>
      by_cases hq3 : q ≤ 65535 <;> simp [portIssues, hq1, hq2, hq3]
  · intro u a t h
    simp [zodParse, h, coercePort]

theorem port_range_and_default_witness :
    portIssues (some (JsNum.num 443)) = [] ∧
    zodParse (fun _ => true) "http://vault.example.com:8200" "hsv.abc" none =
      .ok ⟨"http://vault.example.com:8200", "hsv.abc", 3000⟩ :=
  ⟨(port_range_and_default 443).1.mpr (by norm_num),
   (port_range_and_default 443).2.2.2.2.2 (fun _ => true)
     "http://vault.example.com:8200" "hsv.abc" (by decide)⟩
